import Mathlib

/-!
Verification of the dirsize utility: a shallow embedding of its
directory-size summation, human-readable formatting, and driver loop.

The filesystem is modelled as a tree of entries.  A directory carries a
flag `ok` telling whether enumerating it succeeds; when `ok = false`,
the C++ `recursive_directory_iterator` throws a `filesystem_error`
whose text we carry as `err`.  Regular files carry their byte size;
`other` stands for symlinks and special entries (`is_regular_file`
false, `is_directory` false).  Log timestamps are clock-dependent and
are omitted from log records; a record keeps the level and message that
`log_message` writes after the timestamp.
-/

namespace Dirsize

inductive LogLevel where
  | INFO
  | ERROR
deriving Repr, DecidableEq

structure LogRec where
  level : LogLevel
  message : String
deriving Repr, DecidableEq

inductive FSEntry where
  | file (name : String) (sz : Nat)
  | dir (name : String) (ok : Bool) (err : String) (children : List FSEntry)
  | other (name : String)

/-- Traversal of `fs::recursive_directory_iterator` as in
`calculate_directory_size`: visit entries in order, add `file_size` for
regular files, descend into directories.  Entering a directory whose
enumeration fails throws: the error carries the thrown text and the
value of the local accumulator `size` at that moment. -/
def walkList : List FSEntry → Nat → Except (String × Nat) Nat
  | [], acc => .ok acc
  | .file _ sz :: rest, acc => walkList rest (acc + sz)
  | .other _ :: rest, acc => walkList rest acc
  | .dir _ ok err ch :: rest, acc =>
    if ok then
      match walkList ch acc with
      | .ok acc2 => walkList rest acc2
      | .error e => .error e
    else .error (err, acc)
termination_by l _ => sizeOf l
decreasing_by all_goals (simp_wf <;> omega)

/-- Whether every directory in the forest can be enumerated. -/
def allOk : List FSEntry → Bool
  | [] => true
  | .file _ _ :: rest => allOk rest
  | .other _ :: rest => allOk rest
  | .dir _ ok _ ch :: rest => ok && allOk ch && allOk rest
termination_by l => sizeOf l
decreasing_by all_goals (simp_wf <;> omega)

/-- Sum of `file_size` over all regular files transitively reachable in
the forest; directories, symlinks and other entries contribute 0. -/
def sumRegular : List FSEntry → Nat
  | [] => 0
  | .file _ sz :: rest => sz + sumRegular rest
  | .other _ :: rest => sumRegular rest
  | .dir _ _ _ ch :: rest => sumRegular ch + sumRegular rest
termination_by l => sizeOf l
decreasing_by all_goals (simp_wf <;> omega)

/-- One run of the iteration body of `calculate_directory_size` on a
directory: constructing `recursive_directory_iterator(dir_path)` throws
at once when the directory itself cannot be opened, otherwise the loop
walks its children starting from `size = 0`. -/
def walkDir (ok : Bool) (err : String) (children : List FSEntry) :
    Except (String × Nat) Nat :=
  if ok then walkList children 0 else .error (err, 0)

/-- Text of the exception that aborts the walk ('' when none is thrown). -/
def firstErrOf (ok : Bool) (err : String) (children : List FSEntry) : String :=
  match walkDir ok err children with
  | .error (e, _) => e
  | .ok _ => ""

/-- Value of the accumulator `size` when the walk stops: the total on
success, the partial sum at the throw point on error. -/
def walkPartial (ok : Bool) (err : String) (children : List FSEntry) : Nat :=
  match walkDir ok err children with
  | .ok n => n
  | .error (_, p) => p

/-- Message built in the catch branch of `calculate_directory_size`. -/
def fsErrorMsg (e dirPath : String) : String :=
  "Filesystem error: " ++ e ++ " in directory: " ++ dirPath

/-- The std::optional variant of `calculate_directory_size`: returns the
summed size, or on a filesystem error logs one ERROR record and returns
nullopt.  The second component is the list of records the call appends
to the log. -/
def calculate_directory_size (dirPath : String) (ok : Bool) (err : String)
    (children : List FSEntry) : Option Nat × List LogRec :=
  match walkDir ok err children with
  | .ok n => (some n, [])
  | .error (e, _) => (none, [⟨LogLevel.ERROR, fsErrorMsg e dirPath⟩])

/-- The uintmax_t variant of `calculate_directory_size` (main.cc and the
third source file): on a filesystem error it logs one record and falls
through to `return size`, yielding the partial sum accumulated so far. -/
def calculate_directory_size_u (dirPath : String) (ok : Bool) (err : String)
    (children : List FSEntry) : Nat × List LogRec :=
  match walkDir ok err children with
  | .ok n => (n, [])
  | .error (e, p) => (p, [⟨LogLevel.ERROR, fsErrorMsg e dirPath⟩])

def KB : Nat := 1024
def MB : Nat := KB * 1024
def GB : Nat := MB * 1024

/-- Rounds 100 * size / unit to the nearest integer, ties to even.  This
models the stream output of static_cast double (size) / unit under
std::fixed, std::setprecision(2): the printed value is the quotient
rounded to two fractional digits, which agrees with this exact rational
rounding whenever the quotient is exactly representable (in particular
at every value the claims evaluate). -/
def roundCenti (size unit : Nat) : Nat :=
  let num := 100 * size
  let q := num / unit
  let r := num % unit
  if unit < 2 * r then q + 1
  else if 2 * r < unit then q
  else if q % 2 = 0 then q else q + 1

/-- Two-digit zero-padded rendering of a fractional part below 100. -/
def pad2 (n : Nat) : String :=
  if n < 10 then "0" ++ toString n else toString n

/-- Rendering of size / unit with two fixed fractional digits. -/
def formatFixed2 (size unit : Nat) : String :=
  let c := roundCenti size unit
  toString (c / 100) ++ "." ++ pad2 (c % 100)

/-- The two-decimal variant of `human_readable_size` (main.cc and the
first source file). -/
def human_readable_size (size : Nat) : String :=
  if size ≥ GB then formatFixed2 size GB ++ " GB"
  else if size ≥ MB then formatFixed2 size MB ++ " MB"
  else if size ≥ KB then formatFixed2 size KB ++ " KB"
  else toString size ++ " bytes"

/-- The integer-division variant of `human_readable_size` (second file,
std::to_string(size / unit)). -/
def human_readable_size_int (size : Nat) : String :=
  if size ≥ GB then toString (size / GB) ++ " GB"
  else if size ≥ MB then toString (size / MB) ++ " MB"
  else if size ≥ KB then toString (size / KB) ++ " KB"
  else toString size ++ " bytes"

/-- Reading position 0 of the std::string holding a filename, as in the
test entry.path().filename().string()[0] != '.'.  For the empty string,
operator[] at position size() is defined in C++ to return the null
character. -/
def firstCharOrNull (s : String) : Char :=
  if s.isEmpty then Char.ofNat 0 else s.get 0

/-- Whether the driver's hidden-entry test rejects this name. -/
def isHidden (name : String) : Bool := firstCharOrNull name == '.'

/-- Effect of std::left, std::setw(w) on the next output item: pad on
the right with spaces up to width w; items longer than w are written in
full, never truncated. -/
def padRight (w : Nat) (s : String) : String :=
  s ++ String.mk (List.replicate (w - s.length) ' ')

/-- One report line of the driver: name under setw(30), the literal
text " Size: ", then the size string under setw(10). -/
def reportLine (name sizeStr : String) : String :=
  padRight 30 name ++ " Size: " ++ padRight 10 sizeStr

/-- Path of a top-level entry: directory_path / filename. -/
def childPath (tp name : String) : String := tp ++ "/" ++ name

/-- Body of the driver loop of the std::optional variant for one entry
yielded by directory_iterator: directories whose name does not start
with '.' get an INFO record, a size computation, and one stdout line
(with the literal "Error" when the computation signalled failure);
everything else is skipped.  Result: (stdout lines, log records). -/
def processEntry (tp : String) : FSEntry → List String × List LogRec
  | .file _ _ => ([], [])
  | .other _ => ([], [])
  | .dir name ok err ch =>
    if firstCharOrNull name != '.' then
      let info : LogRec := ⟨LogLevel.INFO, "Processing directory: " ++ childPath tp name⟩
      match calculate_directory_size (childPath tp name) ok err ch with
      | (some n, logs) => ([reportLine name (human_readable_size n)], info :: logs)
      | (none, logs) => ([reportLine name "Error"], info :: logs)
    else ([], [])

/-- The driver loop over the entries directory_iterator yields. -/
def processEntries (tp : String) : List FSEntry → List String × List LogRec
  | [] => ([], [])
  | e :: rest =>
    let r1 := processEntry tp e
    let r2 := processEntries tp rest
    (r1.1 ++ r2.1, r1.2 ++ r2.2)

/-- Whether an entry passes the driver's filter: a directory whose name
does not start with '.'. -/
def qualifies : FSEntry → Bool
  | .dir name _ _ _ => firstCharOrNull name != '.'
  | _ => false

/-- Whether processing this entry can log no ERROR record: it is either
filtered out or its size computation succeeds. -/
def entrySucceeds : FSEntry → Bool
  | .dir name ok _ ch => isHidden name || (ok && allOk ch)
  | _ => true

/-- Number of ERROR-level records in a log. -/
def errCount (logs : List LogRec) : Nat :=
  (logs.filter (fun r => r.level == LogLevel.ERROR)).length

/-- Ambient facts about one run that the code reads from the outside
world: whether the log file opens, whether the target path exists and
is a directory, the entries directory_iterator yields before stopping,
and the error that stops it early, when one does. -/
structure Env where
  logOpenOk : Bool
  targetExists : Bool
  targetIsDir : Bool
  visited : List FSEntry
  listErr : Option String

/-- Observable outcome of one run. -/
structure RunResult where
  exitCode : Nat
  stdout : List String
  stderr : List String
  log : List LogRec
deriving Repr, DecidableEq

/-- The main function of the argument-taking std::optional variant.
argv includes the program name, so the source check argc < 3 is
argv.length < 3; the usage message interpolates argv[0]. -/
def mainArgs (argv : List String) (env : Env) : RunResult :=
  if argv.length < 3 then
    ⟨1, [], ["Usage: " ++ argv.headD "" ++ " <directory_path> <log_file_path>"], []⟩
  else
    let dir := argv.getD 1 ""
    let logPath := argv.getD 2 ""
    if !env.logOpenOk then
      ⟨1, [], ["Unable to open log file: " ++ logPath], []⟩
    else if !env.targetExists || !env.targetIsDir then
      ⟨1, [], [], [⟨LogLevel.ERROR, "Invalid directory path: " ++ dir⟩]⟩
    else
      let r := processEntries dir env.visited
      match env.listErr with
      | none => ⟨0, r.1, [], r.2⟩
      | some e => ⟨0, r.1, [], r.2 ++ [⟨LogLevel.ERROR, "Filesystem error: " ++ e⟩]⟩

/-- Unit suffix the spec's thresholds select, written from the spec's
words for comparison with `human_readable_size`. -/
def claimedUnit (n : Nat) : String :=
  if n ≥ GB then " GB"
  else if n ≥ MB then " MB"
  else if n ≥ KB then " KB"
  else " bytes"

/-- Report line as the spec words it: name padded or truncated to a
fixed field of 30 columns, written from the spec for comparison with
`reportLine`. -/
def claimedReportLine (name sizeStr : String) : String :=
  padRight 30 (name.take 30) ++ " Size: " ++ padRight 10 sizeStr

/-! Helper lemmas about the traversal. -/

theorem walkList_ok (l : List FSEntry) (acc : Nat) (h : allOk l = true) :
    walkList l acc = .ok (acc + sumRegular l) := by
  induction l, acc using walkList.induct with
  | case1 acc => simp [walkList, sumRegular]
  | case2 name sz rest acc ih =>
    simp only [allOk] at h
    simp [walkList, sumRegular, ih h, Nat.add_assoc, Nat.add_comm sz]
  | case3 name rest acc ih =>
    simp only [allOk] at h
    simp [walkList, sumRegular, ih h]
  | case4 name err ch rest acc acc2 hch ihch ihrest =>
    simp only [allOk, Bool.and_eq_true, Bool.true_and] at h
    have hch2 := ihch h.1
    rw [hch2] at hch
    cases hch
    simp only [walkList, if_pos rfl, hch2]
    rw [ihrest h.2]
    simp [sumRegular, Nat.add_assoc]
  | case5 name err ch rest acc e hch ihch =>
    simp only [allOk, Bool.and_eq_true, Bool.true_and] at h
    rw [ihch h.1] at hch
    cases hch
  | case6 name ok err ch rest acc hok =>
    simp only [allOk, Bool.and_eq_true] at h
    exact absurd h.1.1 hok

theorem walkList_err (l : List FSEntry) (acc : Nat) (h : allOk l = false) :
    ∃ e, walkList l acc = .error e := by
  induction l, acc using walkList.induct with
  | case1 acc => simp [allOk] at h
  | case2 name sz rest acc ih =>
    simp only [allOk] at h
    simpa [walkList] using ih h
  | case3 name rest acc ih =>
    simp only [allOk] at h
    simpa [walkList] using ih h
  | case4 name err ch rest acc acc2 hch ihch ihrest =>
    simp only [allOk, Bool.true_and] at h
    rcases Bool.and_eq_false_iff.mp h with hc | hr
    · rcases ihch hc with ⟨e, he⟩
      rw [he] at hch
      cases hch
    · simpa [walkList, hch] using ihrest hr
  | case5 name err ch rest acc e hch ihch =>
    exact ⟨e, by simp [walkList, hch]⟩
  | case6 name ok err ch rest acc hok =>
    have : ok = false := by cases ok <;> simp_all
    subst this
    exact ⟨(err, acc), by simp [walkList]⟩

theorem walkDir_ok (ok : Bool) (err : String) (ch : List FSEntry)
    (h : (ok && allOk ch) = true) : walkDir ok err ch = .ok (sumRegular ch) := by
  simp only [Bool.and_eq_true] at h
  rcases h with ⟨h1, h2⟩
  subst h1
  simpa [walkDir] using walkList_ok ch 0 h2

theorem walkDir_err (ok : Bool) (err : String) (ch : List FSEntry)
    (h : (ok && allOk ch) = false) : ∃ e, walkDir ok err ch = .error e := by
  cases ok with
  | false => exact ⟨(err, 0), by simp [walkDir]⟩
  | true =>
    simp only [Bool.true_and] at h
    simpa [walkDir] using walkList_err ch 0 h

theorem calc_ok (p : String) (ok : Bool) (err : String) (ch : List FSEntry)
    (h : (ok && allOk ch) = true) :
    calculate_directory_size p ok err ch = (some (sumRegular ch), []) := by
  simp [calculate_directory_size, walkDir_ok ok err ch h]

theorem calc_u_ok (p : String) (ok : Bool) (err : String) (ch : List FSEntry)
    (h : (ok && allOk ch) = true) :
    calculate_directory_size_u p ok err ch = (sumRegular ch, []) := by
  simp [calculate_directory_size_u, walkDir_ok ok err ch h]

theorem calc_err (p : String) (ok : Bool) (err : String) (ch : List FSEntry)
    (h : (ok && allOk ch) = false) :
    calculate_directory_size p ok err ch =
      (none, [⟨LogLevel.ERROR, fsErrorMsg (firstErrOf ok err ch) p⟩]) := by
  rcases walkDir_err ok err ch h with ⟨e, he⟩
  simp [calculate_directory_size, firstErrOf, he]

theorem calc_u_err (p : String) (ok : Bool) (err : String) (ch : List FSEntry)
    (h : (ok && allOk ch) = false) :
    calculate_directory_size_u p ok err ch =
      (walkPartial ok err ch,
        [⟨LogLevel.ERROR, fsErrorMsg (firstErrOf ok err ch) p⟩]) := by
  rcases walkDir_err ok err ch h with ⟨e, he⟩
  simp [calculate_directory_size_u, firstErrOf, walkPartial, he]

/-! Helper lemmas about the driver loop. -/

theorem visible_bne (name : String) (h : isHidden name = false) :
    (firstCharOrNull name != '.') = true := by
  simp only [isHidden] at h
  simp [bne, h]

theorem processEntry_dir_ok (tp name : String) (ok : Bool) (err : String)
    (ch : List FSEntry) (hv : isHidden name = false)
    (hs : (ok && allOk ch) = true) :
    processEntry tp (.dir name ok err ch) =
      ([reportLine name (human_readable_size (sumRegular ch))],
       [⟨LogLevel.INFO, "Processing directory: " ++ childPath tp name⟩]) := by
  simp only [processEntry, visible_bne name hv, if_pos,
    calc_ok (childPath tp name) ok err ch hs]

theorem processEntry_dir_err (tp name : String) (ok : Bool) (err : String)
    (ch : List FSEntry) (hv : isHidden name = false)
    (hs : (ok && allOk ch) = false) :
    processEntry tp (.dir name ok err ch) =
      ([reportLine name "Error"],
       [⟨LogLevel.INFO, "Processing directory: " ++ childPath tp name⟩,
        ⟨LogLevel.ERROR, fsErrorMsg (firstErrOf ok err ch) (childPath tp name)⟩]) := by
  simp only [processEntry, visible_bne name hv, if_pos,
    calc_err (childPath tp name) ok err ch hs]

theorem processEntry_dir_hidden (tp name : String) (ok : Bool) (err : String)
    (ch : List FSEntry) (hv : isHidden name = true) :
    processEntry tp (.dir name ok err ch) = ([], []) := by
  simp only [isHidden] at hv
  simp [processEntry, bne, hv]

theorem processEntries_append (tp : String) (l1 l2 : List FSEntry) :
    processEntries tp (l1 ++ l2) =
      ((processEntries tp l1).1 ++ (processEntries tp l2).1,
       (processEntries tp l1).2 ++ (processEntries tp l2).2) := by
  induction l1 with
  | nil => simp [processEntries]
  | cons e rest ih => simp [processEntries, ih]

theorem errCount_append (a b : List LogRec) :
    errCount (a ++ b) = errCount a + errCount b := by
  simp [errCount, List.filter_append]

theorem errCount_entry_succeeds (tp : String) (e : FSEntry)
    (h : entrySucceeds e = true) : errCount (processEntry tp e).2 = 0 := by
  cases e with
  | file name sz => simp [processEntry, errCount]
  | other name => simp [processEntry, errCount]
  | dir name ok err ch =>
    simp only [entrySucceeds, Bool.or_eq_true] at h
    rcases h with h | h
    · simp [processEntry_dir_hidden tp name ok err ch h, errCount]
    · cases hv : isHidden name with
      | true => simp [processEntry_dir_hidden tp name ok err ch hv, errCount]
      | false =>
        simp [processEntry_dir_ok tp name ok err ch hv h, errCount]

theorem errCount_entries_succeed (tp : String) (l : List FSEntry)
    (h : l.all entrySucceeds = true) : errCount (processEntries tp l).2 = 0 := by
  induction l with
  | nil => simp [processEntries, errCount]
  | cons e rest ih =>
    simp only [List.all_cons, Bool.and_eq_true] at h
    simp [processEntries, errCount_append, errCount_entry_succeeds tp e h.1, ih h.2]

/-- Example tree used by witnesses: files of sizes 100, 200 and 300
bytes spread across nested subdirectories, plus a symlink. -/
def demoTree : List FSEntry :=
  [.file "a.txt" 100,
   .dir "sub" true "" [.file "b.txt" 200, .dir "deep" true "" [.file "c.txt" 300]],
   .other "link"]

/-! Claim theorems. -/

/-- C1: human_readable_size selects its unit by thresholds with >=:
the GB form at n >= 1024^3, else the MB form at n >= 1024^2, else the
KB form at n >= 1024, else the raw bytes form; at the boundary,
human_readable_size 1024 is "1.00 KB" and not "1024 bytes". -/
theorem C1_unit_thresholds :
    (∀ n : Nat, (claimedUnit n).data <:+ (human_readable_size n).data) ∧
    (∀ n : Nat, (claimedUnit n).data <:+ (human_readable_size_int n).data) ∧
    human_readable_size 1024 = "1.00 KB" ∧
    human_readable_size 1024 ≠ "1024 bytes" := by
  refine ⟨fun n => ?_, fun n => ?_, rfl, by decide⟩
  · unfold human_readable_size claimedUnit
    split_ifs <;> simp [String.data_append, List.suffix_append]
  · unfold human_readable_size_int claimedUnit
    split_ifs <;> simp [String.data_append, List.suffix_append]

/-- C2: when the traversal completes without a filesystem error, the
byte count calculate_directory_size returns is the sum of file_size
over all regular files transitively reachable under the directory;
directories, symlinks and other entries contribute nothing (and no log
record is written). -/
theorem C2_size_is_sum (p : String) (ok : Bool) (err : String)
    (ch : List FSEntry) (hok : ok = true) (hall : allOk ch = true) :
    calculate_directory_size p ok err ch = (some (sumRegular ch), []) :=
  calc_ok p ok err ch (by simp [hok, hall])

/-- C2 witness: on a tree holding files of 100, 200 and 300 bytes in
nested subdirectories the function returns 600. -/
theorem C2_size_is_sum_witness :
    true = true ∧ allOk demoTree = true ∧
    calculate_directory_size "/tmp/target/sub" true "" demoTree = (some 600, []) := by
  refine ⟨rfl, by simp [demoTree, allOk], ?_⟩
  rw [C2_size_is_sum "/tmp/target/sub" true "" demoTree rfl (by simp [demoTree, allOk])]
  simp [demoTree, sumRegular]

/-- C4: a filesystem error during traversal aborts the whole
calculation: the optional variant returns none and the uintmax
variant returns the partial accumulator, each appending exactly one
ERROR record whose message names the offending directory and the
thrown error text; without error both return the full sum and append
no record. -/
theorem C4_error_aborts (p : String) (ok : Bool) (err : String)
    (ch : List FSEntry) :
    ((calculate_directory_size p ok err ch).1 = none ↔ (ok && allOk ch) = false) ∧
    ((ok && allOk ch) = true →
      calculate_directory_size p ok err ch = (some (sumRegular ch), []) ∧
      calculate_directory_size_u p ok err ch = (sumRegular ch, [])) ∧
    ((ok && allOk ch) = false →
      calculate_directory_size p ok err ch =
        (none, [⟨LogLevel.ERROR, fsErrorMsg (firstErrOf ok err ch) p⟩]) ∧
      calculate_directory_size_u p ok err ch =
        (walkPartial ok err ch,
          [⟨LogLevel.ERROR, fsErrorMsg (firstErrOf ok err ch) p⟩])) := by
  refine ⟨?_, fun h => ⟨calc_ok p ok err ch h, calc_u_ok p ok err ch h⟩,
    fun h => ⟨calc_err p ok err ch h, calc_u_err p ok err ch h⟩⟩
  constructor
  · intro hnone
    cases hs : (ok && allOk ch) with
    | false => rfl
    | true => rw [calc_ok p ok err ch hs] at hnone; cases hnone
  · intro hs
    rw [calc_err p ok err ch hs]

/-- C4 witness: a directory that cannot be enumerated makes the
optional variant return none with one ERROR record naming it, while
with no error it returns the sum with no record. -/
theorem C4_error_aborts_witness :
    ((calculate_directory_size "/t/bad" false "Permission denied" []).1 = none ↔
      (false && allOk []) = false) ∧
    ((false && allOk []) = true →
      calculate_directory_size "/t/bad" false "Permission denied" [] =
        (some (sumRegular []), []) ∧
      calculate_directory_size_u "/t/bad" false "Permission denied" [] =
        (sumRegular [], [])) ∧
    ((false && allOk []) = false →
      calculate_directory_size "/t/bad" false "Permission denied" [] =
        (none, [⟨LogLevel.ERROR,
          fsErrorMsg (firstErrOf false "Permission denied" []) "/t/bad"⟩]) ∧
      calculate_directory_size_u "/t/bad" false "Permission denied" [] =
        (walkPartial false "Permission denied" [],
          [⟨LogLevel.ERROR,
            fsErrorMsg (firstErrOf false "Permission denied" []) "/t/bad"⟩])) :=
  C4_error_aborts "/t/bad" false "Permission denied" []

/-- C5: an entry produces a report line (and log records) exactly when
it is a directory whose name does not start with '.', and then exactly
one report line: hidden subdirectories and non-directory entries yield
no stdout line and no log record. -/
theorem C5_filter (tp : String) (e : FSEntry) :
    (processEntry tp e = ([], []) ↔ qualifies e = false) ∧
    (qualifies e = true → (processEntry tp e).1.length = 1) := by
  cases e with
  | file name sz => simp [processEntry, qualifies]
  | other name => simp [processEntry, qualifies]
  | dir name ok err ch =>
    cases hv : isHidden name with
    | true =>
      have hb : (firstCharOrNull name != '.') = false := by
        simp only [isHidden] at hv
        simp [bne, hv]
      constructor
      · simp [processEntry, qualifies, hb]
      · intro hq
        simp [qualifies, hb] at hq
    | false =>
      have hb := visible_bne name hv
      constructor
      · constructor
        · intro hpe
          exfalso
          cases hs : (ok && allOk ch) with
          | true =>
            rw [processEntry_dir_ok tp name ok err ch hv hs] at hpe
            cases hpe
          | false =>
            rw [processEntry_dir_err tp name ok err ch hv hs] at hpe
            cases hpe
        · intro hq
          simp [qualifies, hb] at hq
      · intro _
        cases hs : (ok && allOk ch) with
        | true => simp [processEntry_dir_ok tp name ok err ch hv hs]
        | false => simp [processEntry_dir_err tp name ok err ch hv hs]

/-- C5 witness: a visible subdirectory yields one report line, while a
hidden one and a plain file yield nothing. -/
theorem C5_filter_witness :
    (qualifies (FSEntry.dir "sub" true "" []) = true ∧
      (processEntry "/t" (FSEntry.dir "sub" true "" [])).1.length = 1) ∧
    (processEntry "/t" (FSEntry.dir ".git" true "" [.file "x" 5]) = ([], []) ↔
      qualifies (FSEntry.dir ".git" true "" [.file "x" 5]) = false) ∧
    (processEntry "/t" (FSEntry.file "notes.txt" 7) = ([], []) ↔
      qualifies (FSEntry.file "notes.txt" 7) = false) :=
  ⟨⟨by decide, (C5_filter "/t" (FSEntry.dir "sub" true "" [])).2 (by decide)⟩,
   (C5_filter "/t" (FSEntry.dir ".git" true "" [.file "x" 5])).1,
   (C5_filter "/t" (FSEntry.file "notes.txt" 7)).1⟩

/-- C10: reading the first character of a filename is total even for
the empty string, where the C++ index operator yields the null
character; an entry named by the empty string is classified as
non-hidden and is therefore reported. -/
theorem C10_empty_name :
    firstCharOrNull "" = Char.ofNat 0 ∧
    isHidden "" = false ∧
    (processEntry "/t" (FSEntry.dir "" true "" [])).1 =
      [reportLine "" (human_readable_size 0)] := by
  refine ⟨rfl, by decide, ?_⟩
  rw [processEntry_dir_ok "/t" "" true "" [] (by decide) (by simp [allOk])]
  simp [sumRegular]

theorem errCount_info_err (m1 m2 : String) :
    errCount [⟨LogLevel.INFO, m1⟩, ⟨LogLevel.ERROR, m2⟩] = 1 := rfl

theorem errCount_single_err (m : String) :
    errCount [⟨LogLevel.ERROR, m⟩] = 1 := rfl

theorem errCount_cons_info (m : String) (l : List LogRec) :
    errCount (⟨LogLevel.INFO, m⟩ :: l) = errCount l := rfl

theorem errCount_cons_err (m : String) (l : List LogRec) :
    errCount (⟨LogLevel.ERROR, m⟩ :: l) = errCount l + 1 := rfl

/-- C3: when one visible subdirectory's size computation fails, its
report line shows the literal "Error", the run's log gains exactly one
ERROR record, naming that directory, and the subdirectories after it
are still processed and reported. -/
theorem C3_failure_isolated (tp : String) (pre post : List FSEntry)
    (name err : String) (ok : Bool) (ch : List FSEntry)
    (hv : isHidden name = false) (hf : (ok && allOk ch) = false)
    (hpre : pre.all entrySucceeds = true)
    (hpost : post.all entrySucceeds = true) :
    processEntries tp (pre ++ FSEntry.dir name ok err ch :: post) =
      ((processEntries tp pre).1 ++
         reportLine name "Error" :: (processEntries tp post).1,
       (processEntries tp pre).2 ++
         ⟨LogLevel.INFO, "Processing directory: " ++ childPath tp name⟩ ::
         ⟨LogLevel.ERROR, fsErrorMsg (firstErrOf ok err ch) (childPath tp name)⟩ ::
         (processEntries tp post).2) ∧
    errCount (processEntries tp (pre ++ FSEntry.dir name ok err ch :: post)).2 = 1 := by
  have hmid := processEntry_dir_err tp name ok err ch hv hf
  have hsplit := processEntries_append tp pre (FSEntry.dir name ok err ch :: post)
  have hcons : processEntries tp (FSEntry.dir name ok err ch :: post) =
      ([reportLine name "Error"] ++ (processEntries tp post).1,
       [⟨LogLevel.INFO, "Processing directory: " ++ childPath tp name⟩,
        ⟨LogLevel.ERROR, fsErrorMsg (firstErrOf ok err ch) (childPath tp name)⟩] ++
         (processEntries tp post).2) := by
    simp only [processEntries]
    rw [hmid]
  have hwhole := hsplit.trans (by rw [hcons])
  refine ⟨by rw [hwhole]; simp, ?_⟩
  rw [hwhole]
  simp [errCount_append, errCount_cons_info, errCount_cons_err,
    errCount_entries_succeed tp pre hpre,
    errCount_entries_succeed tp post hpost]

/-- C3 witness: with a readable subdirectory before and after it, a
subdirectory that cannot be walked leaves exactly one ERROR record. -/
theorem C3_failure_isolated_witness :
    errCount (processEntries "/t"
      ([FSEntry.dir "a" true "" []] ++
        FSEntry.dir "bad" false "Permission denied" [] ::
          [FSEntry.dir "c" true "" [FSEntry.file "f" 5]])).2 = 1 :=
  (C3_failure_isolated "/t" [FSEntry.dir "a" true "" []]
    [FSEntry.dir "c" true "" [FSEntry.file "f" 5]]
    "bad" "Permission denied" false []
    (by decide) (by simp [allOk])
    (by simp [entrySucceeds, allOk])
    (by simp [entrySucceeds, allOk])).2

/-- C6: with fewer than two real command-line arguments the program
prints a usage line on standard error, exits with code 1 and writes
nothing to the log. -/
theorem C6_usage (argv : List String) (env : Env) (h : argv.length < 3) :
    mainArgs argv env =
      ⟨1, [], ["Usage: " ++ argv.headD "" ++ " <directory_path> <log_file_path>"],
        []⟩ := by
  simp [mainArgs, h]

/-- C6 witness: invoked with no arguments at all the run exits 1 with
the usage line and an empty log. -/
theorem C6_usage_witness :
    ([] : List String).length < 3 ∧
    mainArgs [] ⟨true, true, true, [], none⟩ =
      ⟨1, [], ["Usage:  <directory_path> <log_file_path>"], []⟩ := by
  refine ⟨by decide, ?_⟩
  rw [C6_usage [] ⟨true, true, true, [], none⟩ (by decide)]
  rfl

/-- C7: a target path that is missing or not a directory makes the run
append exactly one ERROR record, print nothing on stdout, and exit with
code 1, before any subdirectory is processed. -/
theorem C7_invalid_target (argv : List String) (env : Env)
    (hlen : ¬ argv.length < 3) (hlog : env.logOpenOk = true)
    (hbad : (env.targetExists && env.targetIsDir) = false) :
    mainArgs argv env =
      ⟨1, [], [], [⟨LogLevel.ERROR, "Invalid directory path: " ++ argv.getD 1 ""⟩]⟩ := by
  rcases Bool.and_eq_false_iff.mp hbad with h | h <;>
    simp [mainArgs, hlen, hlog, h]

/-- C7 witness: a nonexistent target path gives exit code 1 and the one
ERROR record naming it. -/
theorem C7_invalid_target_witness :
    ¬ (["dirsize", "/nope", "log.txt"] : List String).length < 3 ∧
    mainArgs ["dirsize", "/nope", "log.txt"] ⟨true, false, false, [], none⟩ =
      ⟨1, [], [], [⟨LogLevel.ERROR, "Invalid directory path: /nope"⟩]⟩ := by
  refine ⟨by decide, ?_⟩
  rw [C7_invalid_target ["dirsize", "/nope", "log.txt"]
    ⟨true, false, false, [], none⟩ (by decide) rfl rfl]
  rfl

/-- C8: an error thrown while enumerating the target directory's
immediate entries is caught after the already-yielded entries were
processed: their report lines stand, one more ERROR record is appended
(the only one, when every visited entry succeeded), entries not yet
yielded are not reported, and the program exits with code 0. -/
theorem C8_listing_error (argv : List String) (env : Env) (e : String)
    (hlen : ¬ argv.length < 3) (hlog : env.logOpenOk = true)
    (hex : env.targetExists = true) (hdir : env.targetIsDir = true)
    (herr : env.listErr = some e) :
    mainArgs argv env =
      ⟨0, (processEntries (argv.getD 1 "") env.visited).1, [],
        (processEntries (argv.getD 1 "") env.visited).2 ++
          [⟨LogLevel.ERROR, "Filesystem error: " ++ e⟩]⟩ ∧
    (env.visited.all entrySucceeds = true →
      errCount (mainArgs argv env).log = 1) := by
  have hm : mainArgs argv env =
      ⟨0, (processEntries (argv.getD 1 "") env.visited).1, [],
        (processEntries (argv.getD 1 "") env.visited).2 ++
          [⟨LogLevel.ERROR, "Filesystem error: " ++ e⟩]⟩ := by
    simp [mainArgs, hlen, hlog, hex, hdir, herr]
  refine ⟨hm, fun hall => ?_⟩
  rw [hm]
  simp only [errCount_append, errCount_entries_succeed _ _ hall,
    errCount_single_err]

/-- C8 witness: one visited subdirectory then an iterator error: the
log holds exactly one ERROR record and the exit code stays 0. -/
theorem C8_listing_error_witness :
    errCount (mainArgs ["dirsize", "/t", "log.txt"]
      ⟨true, true, true, [FSEntry.dir "a" true "" []],
        some "iteration aborted"⟩).log = 1 :=
  (C8_listing_error ["dirsize", "/t", "log.txt"]
    ⟨true, true, true, [FSEntry.dir "a" true "" []], some "iteration aborted"⟩
    "iteration aborted" (by decide) rfl rfl rfl rfl).2
    (by simp [entrySucceeds, allOk])

/-- Name of 31 characters, losing nothing under setw(30). -/
def longName : String := "aaaaaaaaaaaaaaaaaaaaaaaaaaaaaaa"

set_option maxRecDepth 4000 in
/-- C9 counterexample: for a qualifying subdirectory whose name is 31
characters long, the line the driver prints keeps the whole name, so it
differs from the spec's fixed 30-column padded/truncated field. -/
theorem C9_no_truncation_cex :
    (processEntry "/t" (FSEntry.dir longName true "" [])).1 =
      [reportLine longName (human_readable_size 0)] ∧
    reportLine longName (human_readable_size 0) ≠
      claimedReportLine longName (human_readable_size 0) := by
  constructor
  · rw [processEntry_dir_ok "/t" longName true "" [] (by decide) (by simp [allOk])]
    simp [sumRegular]
  · decide

/-- C9 amended: the report line is the name padded on the right to a
minimum field of 30 columns (longer names are printed in full, not
truncated), the literal " Size: ", then the size string (the literal
"Error" on sizing failure) padded to a minimum of 10 columns. -/
theorem C9_report_format (tp name err : String) (ok : Bool)
    (ch : List FSEntry) (hv : isHidden name = false) :
    (processEntry tp (FSEntry.dir name ok err ch)).1 =
      [padRight 30 name ++ " Size: " ++
        padRight 10 (if ok && allOk ch then
          human_readable_size (sumRegular ch) else "Error")] := by
  cases hs : (ok && allOk ch) with
  | true =>
    rw [processEntry_dir_ok tp name ok err ch hv hs]
    simp [reportLine]
  | false =>
    rw [processEntry_dir_err tp name ok err ch hv hs]
    simp [reportLine]

/-- C9 witness: a 2048-byte file under the subdirectory docs yields one
line with both fields space-padded. -/
theorem C9_report_format_witness :
    isHidden "docs" = false ∧
    (processEntry "/t" (FSEntry.dir "docs" true "" [FSEntry.file "f" 2048])).1 =
      [padRight 30 "docs" ++ " Size: " ++
        padRight 10 (if true && allOk [FSEntry.file "f" 2048] then
          human_readable_size (sumRegular [FSEntry.file "f" 2048]) else "Error")] :=
  ⟨by decide,
   C9_report_format "/t" "docs" "" true [FSEntry.file "f" 2048] (by decide)⟩

end Dirsize
